import Mathlib

/-!
Shallow embedding of the voice-agent pipeline orchestrator and metrics core
(`src/main.py`, `src/config.py`).

Timestamps and durations are modelled as rationals (ℚ).  The Excel file used
as the metrics sink is modelled as a list of structured records; possible I/O
failures of the sink are modelled by an explicit `SinkFailure` input.  Python
methods that can raise are embedded in `Except`; methods whose bodies cannot
raise are total functions.
-/

/-- State of a `MetricsTracker` instance (`main.py`, `MetricsTracker.__init__`):
`session_start` is `None` until `start_session` runs; the `metrics` dict fields
are flattened into the structure. -/
structure MetricsTracker where
  session_start : Option ℚ := none
  session_id : Option String := none
  start_time : Option ℚ := none
  end_time : Option ℚ := none
  total_duration : ℚ := 0
  interruptions_count : ℕ := 0
  stt_delays : List ℚ := []
  ttft_delays : List ℚ := []
  ttfd_delays : List ℚ := []
  total_latencies : List ℚ := []
  user_messages : ℕ := 0
  agent_responses : ℕ := 0
  errors : ℕ := 0
  deriving DecidableEq, Repr

/-- Fresh tracker, as built by `MetricsTracker.__init__`. -/
def MetricsTracker.new : MetricsTracker := {}

/-- `start_session(session_id)`: stores the wall-clock time and the id. -/
def start_session (tNow : ℚ) (sid : String) (m : MetricsTracker) : MetricsTracker :=
  { m with session_start := some tNow, session_id := some sid, start_time := some tNow }

/-- `record_stt_delay(delay)`: unconditional append (no state check in source). -/
def record_stt_delay (m : MetricsTracker) (delay : ℚ) : MetricsTracker :=
  { m with stt_delays := m.stt_delays ++ [delay] }

/-- `record_ttft(delay)`: unconditional append. -/
def record_ttft (m : MetricsTracker) (delay : ℚ) : MetricsTracker :=
  { m with ttft_delays := m.ttft_delays ++ [delay] }

/-- `record_ttfd(delay)`: unconditional append. -/
def record_ttfd (m : MetricsTracker) (delay : ℚ) : MetricsTracker :=
  { m with ttfd_delays := m.ttfd_delays ++ [delay] }

/-- `record_total_latency(latency)`: unconditional append. -/
def record_total_latency (m : MetricsTracker) (latency : ℚ) : MetricsTracker :=
  { m with total_latencies := m.total_latencies ++ [latency] }

/-- `record_interruption()`: unconditional increment. -/
def record_interruption (m : MetricsTracker) : MetricsTracker :=
  { m with interruptions_count := m.interruptions_count + 1 }

/-- `record_user_message()`: unconditional increment. -/
def record_user_message (m : MetricsTracker) : MetricsTracker :=
  { m with user_messages := m.user_messages + 1 }

/-- `record_agent_response()`: unconditional increment. -/
def record_agent_response (m : MetricsTracker) : MetricsTracker :=
  { m with agent_responses := m.agent_responses + 1 }

/-- `record_error()`: unconditional increment. -/
def record_error (m : MetricsTracker) : MetricsTracker :=
  { m with errors := m.errors + 1 }

/-- `end_session()`: guarded by `if self.session_start:`; sets the end timestamp
and the duration. -/
def end_session (tNow : ℚ) (m : MetricsTracker) : MetricsTracker :=
  match m.session_start with
  | some s => { m with end_time := some tNow, total_duration := tNow - s }
  | none => m

/-- Python `sum(l)/len(l) if l else 0`. -/
def listAvg (l : List ℚ) : ℚ :=
  if l.isEmpty then 0 else l.sum / l.length

/-- Python `max(l) if l else 0`. -/
def listMax : List ℚ → ℚ
  | [] => 0
  | x :: xs => xs.foldl max x

/-- Python `min(l) if l else 0`. -/
def listMin : List ℚ → ℚ
  | [] => 0
  | x :: xs => xs.foldl min x

/-- One row of the metrics sink: the `summary_data` dict built by
`save_to_excel` (`main.py` lines 80–96). -/
structure SummaryRecord where
  session_id : Option String
  start_time : Option ℚ
  end_time : Option ℚ
  total_duration : ℚ
  user_messages : ℕ
  agent_responses : ℕ
  interruptions : ℕ
  avg_stt : ℚ
  avg_ttft : ℚ
  avg_ttfd : ℚ
  avg_latency : ℚ
  max_latency : ℚ
  min_latency : ℚ
  errors : ℕ
  latency_target_met : Bool
  deriving DecidableEq, Repr

/-- The summary row `save_to_excel` computes from the tracker state.  Note the
hardcoded `< 2.0` in the `Latency Target Met (<2s)` column (`main.py` line 95). -/
def summary (m : MetricsTracker) : SummaryRecord where
  session_id := m.session_id
  start_time := m.start_time
  end_time := m.end_time
  total_duration := m.total_duration
  user_messages := m.user_messages
  agent_responses := m.agent_responses
  interruptions := m.interruptions_count
  avg_stt := listAvg m.stt_delays
  avg_ttft := listAvg m.ttft_delays
  avg_ttfd := listAvg m.ttfd_delays
  avg_latency := listAvg m.total_latencies
  max_latency := listMax m.total_latencies
  min_latency := listMin m.total_latencies
  errors := m.errors
  latency_target_met := decide (listAvg m.total_latencies < 2)

/-- Which sink operation, if any, fails during `save_to_excel`
(`pd.read_excel` / `df.to_excel`). -/
inductive SinkFailure
  | ok
  | readFail
  | writeFail
  deriving DecidableEq, Repr

/-- `pd.read_excel(filename)`: returns the existing rows or raises. -/
def readSink (f : SinkFailure) (sink : List SummaryRecord) :
    Except String (List SummaryRecord) :=
  match f with
  | .readFail => .error "read error"
  | _ => .ok sink

/-- `df.to_excel(filename)`: replaces the file contents with `rows` or raises. -/
def writeSink (f : SinkFailure) (rows : List SummaryRecord) :
    Except String (List SummaryRecord) :=
  match f with
  | .writeFail => .error "write error"
  | _ => .ok rows

/-- `save_to_excel(filename)` (`main.py` lines 73–104): builds the one-row
summary, reads the existing file when present (`os.path.exists` is modelled by
the sink being non-empty), concatenates, and writes back; the whole body is
wrapped in `try/except Exception`, which logs and returns normally, leaving the
sink untouched.  The `Except` result type records whether an exception escapes
the method. -/
def save_to_excel (m : MetricsTracker) (f : SinkFailure) (sink : List SummaryRecord) :
    Except String (List SummaryRecord) :=
  let body : Except String (List SummaryRecord) := do
    let df := [summary m]
    let rows ←
      if sink.isEmpty then pure df
      else do
        let existing ← readSink f sink
        pure (existing ++ df)
    writeSink f rows
  match body with
  | .ok rows => .ok rows
  | .error _ => .ok sink

/-- Python truthiness of an `os.getenv` result: `None` and the empty string are
falsy. -/
def truthy : Option String → Bool
  | none => false
  | some s => !(s == "")

/-- Credential/configuration surface of `config.py` (`Config` class attributes
relevant to validation).  `target_latency` defaults to 2.0 seconds
(`TARGET_LATENCY`, `config.py` line 24). -/
structure Config where
  livekit_api_key : Option String := none
  livekit_api_secret : Option String := none
  deepgram_api_key : Option String := none
  openai_api_key : Option String := none
  groq_api_key : Option String := none
  elevenlabs_api_key : Option String := none
  cartesia_api_key : Option String := none
  target_latency : ℚ := 2
  deriving DecidableEq, Repr

/-- The `priorities` dict returned by `Config.get_service_priority`. -/
structure ServicePriorities where
  stt : List String
  llm : List String
  tts : List String
  deriving DecidableEq, Repr

/-- `Config.get_service_priority` (`config.py` lines 96–125): per stage, the
providers whose credentials are present, in the source's fixed order. -/
def get_service_priority (c : Config) : ServicePriorities where
  stt := (if truthy c.deepgram_api_key then ["deepgram"] else []) ++
    (if truthy c.openai_api_key then ["openai"] else [])
  llm := (if truthy c.groq_api_key then ["groq"] else []) ++
    (if truthy c.openai_api_key then ["openai"] else [])
  tts := (if truthy c.elevenlabs_api_key then ["elevenlabs"] else []) ++
    (if truthy c.cartesia_api_key then ["cartesia"] else []) ++
    (if truthy c.openai_api_key then ["openai"] else [])

/-- The three pipeline stages. -/
inductive Stage
  | stt
  | llm
  | tts
  deriving DecidableEq, Repr

/-- Look up one stage's provider list. -/
def ServicePriorities.get : ServicePriorities → Stage → List String
  | p, .stt => p.stt
  | p, .llm => p.llm
  | p, .tts => p.tts

/-- The f-string `f"No {service_type.upper()} service configured"` for each
stage. -/
def stageError : Stage → String
  | .stt => "No STT service configured"
  | .llm => "No LLM service configured"
  | .tts => "No TTS service configured"

/-- The `status` dict returned by `Config.validate_config`. -/
structure ConfigStatus where
  valid : Bool
  errors : List String
  warnings : List String
  available_services : ServicePriorities
  deriving DecidableEq, Repr

/-- `Config.validate_config` (`config.py` lines 128–155): transport-credential
check, then the per-stage availability loop (dict insertion order
stt, llm, tts), then the target-latency warning. -/
def validate_config (c : Config) : ConfigStatus :=
  let transportOk := truthy c.livekit_api_key && truthy c.livekit_api_secret
  let errors0 : List String :=
    if transportOk then [] else ["LiveKit API key and secret are required"]
  let valid0 := transportOk
  let p := get_service_priority c
  let errors1 := if p.stt.isEmpty then errors0 ++ [stageError .stt] else errors0
  let valid1 := if p.stt.isEmpty then false else valid0
  let errors2 := if p.llm.isEmpty then errors1 ++ [stageError .llm] else errors1
  let valid2 := if p.llm.isEmpty then false else valid1
  let errors3 := if p.tts.isEmpty then errors2 ++ [stageError .tts] else errors2
  let valid3 := if p.tts.isEmpty then false else valid2
  let warnings :=
    if 3 < c.target_latency then ["Target latency > 3s may impact user experience"] else []
  { valid := valid3, errors := errors3, warnings := warnings, available_services := p }

/-- Outcome of one awaited provider call (`stt.transcribe`, `llm_service.chat`,
`tts.synthesize`): either it returns after `d` seconds of wall-clock time, or
it raises. -/
inductive StageResult
  | ok (d : ℚ)
  | fail
  deriving DecidableEq, Repr

/-- Scripted behaviour of one audio segment's cycle: the outcome of each
provider call, and whether `ctx.send_audio` succeeds. -/
structure SegmentSpec where
  stt : StageResult
  llm : StageResult
  tts : StageResult
  send : Bool
  deriving DecidableEq, Repr

/-- Scripted behaviour of `ctx.audio_stream()`: the segments it yields, and
whether iteration raises a transport error after them instead of ending
normally. -/
structure StreamSpec where
  segments : List SegmentSpec
  endError : Bool
  deriving DecidableEq, Repr

/-- Calls made on the metrics tracker and sink, recorded as a trace. -/
inductive CallEvent
  | startSessionEv
  | recordSttDelayEv (d : ℚ)
  | recordUserMessageEv
  | recordTtftEv (d : ℚ)
  | recordTtfdEv (d : ℚ)
  | recordAgentResponseEv
  | recordInterruptionEv
  | recordErrorEv
  | endSessionEv
  | saveToExcelEv
  deriving DecidableEq, Repr

/-- Result of one iteration of the `async for` body. -/
structure CycleResult where
  clock : ℚ
  tracker : MetricsTracker
  trace : List CallEvent
  raised : Bool
  deriving Repr

/-- One iteration of the `async for audio_chunk` body (`main.py` lines
157–182).  The wall clock enters at `t`; each provider call advances it by its
duration.  `stt_delay = time.time() - start_stt`, `ttft = time.time() -
start_llm`, and — exactly as in the source (line 176) — `ttfd = time.time() -
start_llm`, not `- start_tts`.  A raising provider call or a failing
`ctx.send_audio` sets `raised`; mutations made before the raise are kept. -/
def processSegment (t : ℚ) (m : MetricsTracker) (s : SegmentSpec) : CycleResult :=
  let start_stt := t
  match s.stt with
  | .fail => ⟨t, m, [], true⟩
  | .ok dstt =>
    let t1 := t + dstt
    let stt_delay := t1 - start_stt
    let m := record_user_message (record_stt_delay m stt_delay)
    let tr := [CallEvent.recordSttDelayEv stt_delay, CallEvent.recordUserMessageEv]
    let start_llm := t1
    match s.llm with
    | .fail => ⟨t1, m, tr, true⟩
    | .ok dllm =>
      let t2 := t1 + dllm
      let ttftVal := t2 - start_llm
      let m := record_ttft m ttftVal
      let tr := tr ++ [CallEvent.recordTtftEv ttftVal]
      match s.tts with
      | .fail => ⟨t2, m, tr, true⟩
      | .ok dtts =>
        let t3 := t2 + dtts
        let ttfdVal := t3 - start_llm
        let m := record_agent_response (record_ttfd m ttfdVal)
        let tr := tr ++ [CallEvent.recordTtfdEv ttfdVal, CallEvent.recordAgentResponseEv]
        ⟨t3, m, tr, !s.send⟩

/-- Result of running the whole `async for` loop. -/
structure LoopResult where
  tracker : MetricsTracker
  trace : List CallEvent
  raised : Bool
  deriving Repr

/-- The `async for` loop: segments are consumed strictly sequentially, one
iteration at a time; the first exception aborts the loop; if the stream itself
raises after its segments, the loop ends with that exception. -/
def runLoop (t : ℚ) (m : MetricsTracker) (segs : List SegmentSpec) (endErr : Bool) :
    LoopResult :=
  match segs with
  | [] => ⟨m, [], endErr⟩
  | s :: rest =>
    let c := processSegment t m s
    if c.raised then ⟨c.tracker, c.trace, true⟩
    else
      let r := runLoop c.clock c.tracker rest endErr
      ⟨r.tracker, c.trace ++ r.trace, r.raised⟩

/-- Result of one call of `VoiceAgent.entrypoint`. -/
structure SessionResult where
  tracker : MetricsTracker
  sink : List SummaryRecord
  trace : List CallEvent
  deriving Repr

/-- `VoiceAgent.entrypoint` (`main.py` lines 111–190): `start_session`, then the
`try` block running the loop; `except Exception` calls `record_error()` once;
the `finally` block calls `end_session()` then `save_to_excel()`.  An exception
escaping `save_to_excel` would propagate out of the `finally` block, hence the
`Except` result. -/
def entrypoint (t0 tEnd : ℚ) (sid : String) (stream : StreamSpec) (f : SinkFailure)
    (sink : List SummaryRecord) : Except String SessionResult :=
  let m0 := start_session t0 sid MetricsTracker.new
  let r := runLoop t0 m0 stream.segments stream.endError
  let m1 := if r.raised then record_error r.tracker else r.tracker
  let errTrace : List CallEvent := if r.raised then [CallEvent.recordErrorEv] else []
  let m2 := end_session tEnd m1
  match save_to_excel m2 f sink with
  | .ok sink2 =>
    .ok ⟨m2, sink2,
      [CallEvent.startSessionEv] ++ r.trace ++ errTrace ++
        [CallEvent.endSessionEv, CallEvent.saveToExcelEv]⟩
  | .error e => .error e

/-! ### Helper lemmas -/

/-- `save_to_excel` returns normally for every failure mode. -/
theorem save_to_excel_isOk (m : MetricsTracker) (f : SinkFailure) (sink : List SummaryRecord) :
    ∃ rows, save_to_excel m f sink = .ok rows := by
  cases f <;> cases sink <;>
    simp [save_to_excel, readSink, writeSink, Bind.bind, Except.bind, pure, Except.pure]

/-- On the failure-free path, `save_to_excel` appends the summary row. -/
theorem save_to_excel_ok_eq (m : MetricsTracker) (sink : List SummaryRecord) :
    save_to_excel m .ok sink = .ok (sink ++ [summary m]) := by
  cases sink <;>
    simp [save_to_excel, readSink, writeSink, Bind.bind, Except.bind, pure, Except.pure]

/-- A cycle's trace holds only per-stage recording events. -/
theorem processSegment_trace_events (t : ℚ) (m : MetricsTracker) (s : SegmentSpec) :
    CallEvent.endSessionEv ∉ (processSegment t m s).trace ∧
    CallEvent.saveToExcelEv ∉ (processSegment t m s).trace ∧
    CallEvent.recordInterruptionEv ∉ (processSegment t m s).trace := by
  rcases s with ⟨sstt, sllm, stts, ssend⟩
  cases sstt <;> cases sllm <;> cases stts <;> simp [processSegment]

/-- The loop's trace holds only per-stage recording events. -/
theorem runLoop_trace_events (t : ℚ) (m : MetricsTracker) (segs : List SegmentSpec)
    (endErr : Bool) :
    CallEvent.endSessionEv ∉ (runLoop t m segs endErr).trace ∧
    CallEvent.saveToExcelEv ∉ (runLoop t m segs endErr).trace ∧
    CallEvent.recordInterruptionEv ∉ (runLoop t m segs endErr).trace := by
  induction segs generalizing t m with
  | nil => simp [runLoop]
  | cons s rest ih =>
    have hs := processSegment_trace_events t m s
    rw [runLoop]
    by_cases hr : (processSegment t m s).raised
    · simpa [hr] using hs
    · have ihr := ih (processSegment t m s).clock (processSegment t m s).tracker
      simp only [hr, if_false, ite_false]
      refine ⟨?_, ?_, ?_⟩ <;> simp [List.mem_append, hs.1, hs.2.1, hs.2.2, ihr.1, ihr.2.1, ihr.2.2]

/-- A cycle never touches the `errors` or `interruptions_count` counters
(the loop body calls neither `record_error` nor `record_interruption`). -/
theorem processSegment_counters (t : ℚ) (m : MetricsTracker) (s : SegmentSpec) :
    (processSegment t m s).tracker.errors = m.errors ∧
    (processSegment t m s).tracker.interruptions_count = m.interruptions_count := by
  rcases s with ⟨sstt, sllm, stts, ssend⟩
  cases sstt <;> cases sllm <;> cases stts <;>
    simp [processSegment, record_stt_delay, record_user_message, record_ttft,
      record_ttfd, record_agent_response]

/-- The loop never touches `errors` or `interruptions_count`. -/
theorem runLoop_counters (t : ℚ) (m : MetricsTracker) (segs : List SegmentSpec)
    (endErr : Bool) :
    (runLoop t m segs endErr).tracker.errors = m.errors ∧
    (runLoop t m segs endErr).tracker.interruptions_count = m.interruptions_count := by
  induction segs generalizing t m with
  | nil => simp [runLoop]
  | cons s rest ih =>
    have hs := processSegment_counters t m s
    rw [runLoop]
    by_cases hr : (processSegment t m s).raised
    · simpa [hr] using hs
    · have ihr := ih (processSegment t m s).clock (processSegment t m s).tracker
      simp only [hr, if_false, ite_false]
      exact ⟨ihr.1.trans hs.1, ihr.2.trans hs.2⟩

/-- A cycle appends at most one STT-delay sample. -/
theorem processSegment_stt_delays_length (t : ℚ) (m : MetricsTracker) (s : SegmentSpec) :
    (processSegment t m s).tracker.stt_delays.length ≤ m.stt_delays.length + 1 := by
  rcases s with ⟨sstt, sllm, stts, ssend⟩
  cases sstt <;> cases sllm <;> cases stts <;>
    simp [processSegment, record_stt_delay, record_user_message, record_ttft,
      record_ttfd, record_agent_response]

/-- The loop appends at most one STT-delay sample per segment. -/
theorem runLoop_stt_delays_length (t : ℚ) (m : MetricsTracker) (segs : List SegmentSpec)
    (endErr : Bool) :
    (runLoop t m segs endErr).tracker.stt_delays.length ≤
      m.stt_delays.length + segs.length := by
  induction segs generalizing t m with
  | nil => simp [runLoop]
  | cons s rest ih =>
    have hs := processSegment_stt_delays_length t m s
    have ihr := ih (processSegment t m s).clock (processSegment t m s).tracker
    rw [runLoop]
    cases hr : (processSegment t m s).raised <;> simp only [hr] <;> simp <;> omega

/-- Whether every provider call and the final send of a segment succeed. -/
def segOk (s : SegmentSpec) : Bool :=
  (match s.stt with | .ok _ => true | .fail => false) &&
  (match s.llm with | .ok _ => true | .fail => false) &&
  (match s.tts with | .ok _ => true | .fail => false) &&
  s.send

/-- A cycle raises exactly when some provider call or the send fails. -/
theorem processSegment_raised (t : ℚ) (m : MetricsTracker) (s : SegmentSpec) :
    (processSegment t m s).raised = !segOk s := by
  rcases s with ⟨sstt, sllm, stts, ssend⟩
  cases sstt <;> cases sllm <;> cases stts <;> cases ssend <;>
    simp [processSegment, segOk]

/-- After a failing segment the loop stops: later segments are never touched. -/
theorem runLoop_abandon (t : ℚ) (m : MetricsTracker) (pre : List SegmentSpec)
    (s : SegmentSpec) (post : List SegmentSpec) (endErr : Bool)
    (hpre : ∀ x ∈ pre, segOk x = true) (hs : segOk s = false) :
    runLoop t m (pre ++ s :: post) endErr = runLoop t m (pre ++ [s]) endErr := by
  induction pre generalizing t m with
  | nil =>
    simp only [List.nil_append]
    rw [runLoop, runLoop]
    have hr : (processSegment t m s).raised = true := by
      rw [processSegment_raised, hs]; rfl
    simp [hr]
  | cons x pre ih =>
    have hx : segOk x = true := hpre x (by simp)
    have hr : (processSegment t m x).raised = false := by
      rw [processSegment_raised, hx]; rfl
    simp only [List.cons_append]
    rw [runLoop, runLoop]
    simp [hr, ih _ _ (fun y hy => hpre y (by simp [hy]))]

/-- A loop whose last segment fails ends with the exception flag set. -/
theorem runLoop_raised_of_fail (t : ℚ) (m : MetricsTracker) (pre : List SegmentSpec)
    (s : SegmentSpec) (endErr : Bool)
    (hpre : ∀ x ∈ pre, segOk x = true) (hs : segOk s = false) :
    (runLoop t m (pre ++ [s]) endErr).raised = true := by
  induction pre generalizing t m with
  | nil =>
    simp only [List.nil_append]
    rw [runLoop]
    have hr : (processSegment t m s).raised = true := by
      rw [processSegment_raised, hs]; rfl
    simp [hr, runLoop]
  | cons x pre ih =>
    have hx : segOk x = true := hpre x (by simp)
    have hr : (processSegment t m x).raised = false := by
      rw [processSegment_raised, hx]; rfl
    simp only [List.cons_append]
    rw [runLoop]
    simp [hr, ih _ _ (fun y hy => hpre y (by simp [hy]))]

/-- `end_session` leaves every counter and sample list unchanged. -/
theorem end_session_fields (tNow : ℚ) (m : MetricsTracker) :
    (end_session tNow m).errors = m.errors ∧
    (end_session tNow m).interruptions_count = m.interruptions_count ∧
    (end_session tNow m).stt_delays = m.stt_delays ∧
    (end_session tNow m).user_messages = m.user_messages ∧
    (end_session tNow m).agent_responses = m.agent_responses ∧
    (end_session tNow m).total_latencies = m.total_latencies := by
  rcases h : m.session_start with _ | s <;> simp [end_session, h]

/-- The loop result reached inside `entrypoint`. -/
def loopRes (t0 : ℚ) (sid : String) (stream : StreamSpec) : LoopResult :=
  runLoop t0 (start_session t0 sid MetricsTracker.new) stream.segments stream.endError

/-- The tracker state at the end of `entrypoint`'s `finally` block. -/
def finalTracker (t0 tEnd : ℚ) (sid : String) (stream : StreamSpec) : MetricsTracker :=
  end_session tEnd
    (if (loopRes t0 sid stream).raised then record_error (loopRes t0 sid stream).tracker
     else (loopRes t0 sid stream).tracker)

/-- The full call trace of one `entrypoint` execution. -/
def fullTrace (t0 : ℚ) (sid : String) (stream : StreamSpec) : List CallEvent :=
  [CallEvent.startSessionEv] ++ (loopRes t0 sid stream).trace ++
    (if (loopRes t0 sid stream).raised then [CallEvent.recordErrorEv] else []) ++
    [CallEvent.endSessionEv, CallEvent.saveToExcelEv]

/-- `entrypoint` unfolded through the named intermediate states. -/
theorem entrypoint_eq (t0 tEnd : ℚ) (sid : String) (stream : StreamSpec) (f : SinkFailure)
    (sink : List SummaryRecord) :
    entrypoint t0 tEnd sid stream f sink =
      match save_to_excel (finalTracker t0 tEnd sid stream) f sink with
      | .ok sink2 => .ok ⟨finalTracker t0 tEnd sid stream, sink2, fullTrace t0 sid stream⟩
      | .error e => .error e := rfl

/-- `entrypoint` always returns normally, with the named tracker and trace. -/
theorem entrypoint_ok (t0 tEnd : ℚ) (sid : String) (stream : StreamSpec) (f : SinkFailure)
    (sink : List SummaryRecord) :
    ∃ rows, entrypoint t0 tEnd sid stream f sink =
      .ok ⟨finalTracker t0 tEnd sid stream, rows, fullTrace t0 sid stream⟩ := by
  obtain ⟨rows, h⟩ := save_to_excel_isOk (finalTracker t0 tEnd sid stream) f sink
  exact ⟨rows, by rw [entrypoint_eq, h]⟩

/-! ### Claims -/

/-- C1: For every execution of `VoiceAgent.entrypoint` — whatever the exit
cause: the stream ends normally, a provider call raises, the send fails, or the
stream raises a transport error — the call returns normally and its call trace
contains exactly one `end_session` call and exactly one `save_to_excel` call,
both placed after every event of the loop. -/
theorem C1_teardown_exactly_once (t0 tEnd : ℚ) (sid : String) (stream : StreamSpec)
    (f : SinkFailure) (sink : List SummaryRecord) :
    ∃ res, entrypoint t0 tEnd sid stream f sink = .ok res ∧
      res.trace.count CallEvent.endSessionEv = 1 ∧
      res.trace.count CallEvent.saveToExcelEv = 1 ∧
      ∃ preTr, res.trace = preTr ++ [CallEvent.endSessionEv, CallEvent.saveToExcelEv] ∧
        CallEvent.endSessionEv ∉ preTr ∧ CallEvent.saveToExcelEv ∉ preTr := by
  obtain ⟨rows, h⟩ := entrypoint_ok t0 tEnd sid stream f sink
  have hloop := runLoop_trace_events t0 (start_session t0 sid MetricsTracker.new)
    stream.segments stream.endError
  have h1 : CallEvent.endSessionEv ∉ (loopRes t0 sid stream).trace := hloop.1
  have h2 : CallEvent.saveToExcelEv ∉ (loopRes t0 sid stream).trace := hloop.2.1
  refine ⟨_, h, ?_, ?_, ?_⟩
  · simp only [fullTrace, List.count_append]
    rw [List.count_eq_zero.mpr h1]
    cases hr : (loopRes t0 sid stream).raised <;> simp [List.count_cons]
  · simp only [fullTrace, List.count_append]
    rw [List.count_eq_zero.mpr h2]
    cases hr : (loopRes t0 sid stream).raised <;> simp [List.count_cons]
  · refine ⟨[CallEvent.startSessionEv] ++ (loopRes t0 sid stream).trace ++
      (if (loopRes t0 sid stream).raised then [CallEvent.recordErrorEv] else []), ?_, ?_, ?_⟩
    · simp [fullTrace, List.append_assoc]
    · cases hr : (loopRes t0 sid stream).raised <;> simp [hr, h1]
    · cases hr : (loopRes t0 sid stream).raised <;> simp [hr, h2]

/-- A segment whose three provider calls each take 1 second and succeed, and
whose send succeeds. -/
def segA : SegmentSpec := ⟨.ok 1, .ok 1, .ok 1, true⟩

/-- A segment whose STT call raises. -/
def segBadStt : SegmentSpec := ⟨.fail, .ok 1, .ok 1, true⟩

/-- C3 counterexample: stream of three segments where only segment 2's STT call
fails.  The whole session result is identical to the one for a stream that ends
at segment 2 — segment 3 is never processed — and only one user message is
recorded (the claim's degraded-continue policy would require two, from segments
1 and 3).  A single provider failure terminates the session. -/
theorem C3_counterexample :
    entrypoint 0 100 "s" ⟨[segA, segBadStt, segA], false⟩ .ok [] =
      entrypoint 0 100 "s" ⟨[segA, segBadStt], false⟩ .ok [] ∧
    (finalTracker 0 100 "s" ⟨[segA, segBadStt, segA], false⟩).user_messages = 1 ∧
    (finalTracker 0 100 "s" ⟨[segA, segBadStt, segA], false⟩).user_messages ≠ 2 := by
  refine ⟨rfl, by decide, by decide⟩

/-- C3 amended: when every segment before `s` succeeds and a provider call (or
the send) of `s` fails, the orchestrator records exactly one error and abandons
the cycle's remaining stages, but it does not continue with later segments: the
session result equals the one for the stream truncated at `s` (the `async for`
loop is aborted by the exception, and teardown still runs). -/
theorem C3_provider_failure_terminates (t0 tEnd : ℚ) (sid : String)
    (pre : List SegmentSpec) (s : SegmentSpec) (post : List SegmentSpec)
    (f : SinkFailure) (sink : List SummaryRecord)
    (hpre : ∀ x ∈ pre, segOk x = true) (hs : segOk s = false) :
    entrypoint t0 tEnd sid ⟨pre ++ s :: post, false⟩ f sink =
      entrypoint t0 tEnd sid ⟨pre ++ [s], false⟩ f sink ∧
    (finalTracker t0 tEnd sid ⟨pre ++ s :: post, false⟩).errors = 1 := by
  have hA : loopRes t0 sid ⟨pre ++ s :: post, false⟩ = loopRes t0 sid ⟨pre ++ [s], false⟩ := by
    simp only [loopRes]
    exact runLoop_abandon _ _ pre s post false hpre hs
  have hFT : finalTracker t0 tEnd sid ⟨pre ++ s :: post, false⟩ =
      finalTracker t0 tEnd sid ⟨pre ++ [s], false⟩ := by
    simp [finalTracker, hA]
  have hTr : fullTrace t0 sid ⟨pre ++ s :: post, false⟩ =
      fullTrace t0 sid ⟨pre ++ [s], false⟩ := by
    simp [fullTrace, hA]
  constructor
  · rw [entrypoint_eq, entrypoint_eq, hFT, hTr]
  · have hraised : (loopRes t0 sid ⟨pre ++ s :: post, false⟩).raised = true := by
      rw [hA]
      exact runLoop_raised_of_fail _ _ pre s false hpre hs
    have hz : (loopRes t0 sid ⟨pre ++ s :: post, false⟩).tracker.errors = 0 := by
      have := (runLoop_counters t0 (start_session t0 sid MetricsTracker.new)
        (pre ++ s :: post) false).1
      simpa [loopRes, start_session, MetricsTracker.new] using this
    simp [finalTracker, hraised, record_error,
      (end_session_fields tEnd _).1, hz]

/-- Witness for `C3_provider_failure_terminates` at a concrete stream. -/
theorem C3_provider_failure_terminates_witness :
    entrypoint 0 100 "s" ⟨[segA] ++ segBadStt :: [segA], false⟩ .ok [] =
      entrypoint 0 100 "s" ⟨[segA] ++ [segBadStt], false⟩ .ok [] ∧
    (finalTracker 0 100 "s" ⟨[segA] ++ segBadStt :: [segA], false⟩).errors = 1 :=
  C3_provider_failure_terminates 0 100 "s" [segA] segBadStt [segA] .ok []
    (by decide) (by decide)

/-- C6 counterexample: a session with two successive audio segments.  The code
never calls `record_interruption` from the pipeline: the exported interruption
count is 0 (the claim requires exactly one interruption to be recorded), both
segments' synthesized responses are emitted (nothing is discarded), and no
interruption event appears anywhere in the call trace. -/
theorem C6_counterexample :
    (finalTracker 0 100 "s" ⟨[segA, segA], false⟩).interruptions_count = 0 ∧
    (finalTracker 0 100 "s" ⟨[segA, segA], false⟩).agent_responses = 2 ∧
    (fullTrace 0 "s" ⟨[segA, segA], false⟩).count CallEvent.recordInterruptionEv = 0 :=
  ⟨by decide, by decide, by decide⟩

/-- C6 amended: the orchestrator has no interruption handling at all.  Segments
are consumed strictly sequentially by the `async for` loop — a newly arrived
segment is only picked up after the previous cycle completed in full — so
`record_interruption` is never invoked: for every input stream the trace has no
interruption event, the exported interruption count is 0, and each segment
contributes at most one STT-delay sample (a delay is never recorded twice). -/
theorem C6_no_interruption_handling (t0 tEnd : ℚ) (sid : String) (stream : StreamSpec) :
    (finalTracker t0 tEnd sid stream).interruptions_count = 0 ∧
    (fullTrace t0 sid stream).count CallEvent.recordInterruptionEv = 0 ∧
    (finalTracker t0 tEnd sid stream).stt_delays.length ≤ stream.segments.length := by
  have hc := runLoop_counters t0 (start_session t0 sid MetricsTracker.new)
    stream.segments stream.endError
  have hl := runLoop_stt_delays_length t0 (start_session t0 sid MetricsTracker.new)
    stream.segments stream.endError
  have ht := runLoop_trace_events t0 (start_session t0 sid MetricsTracker.new)
    stream.segments stream.endError
  have h0 : (loopRes t0 sid stream).tracker.interruptions_count = 0 := by
    simpa [loopRes, start_session, MetricsTracker.new] using hc.2
  have ht' : CallEvent.recordInterruptionEv ∉ (loopRes t0 sid stream).trace := ht.2.2
  have hlen : (loopRes t0 sid stream).tracker.stt_delays.length ≤ stream.segments.length := by
    simpa [loopRes, start_session, MetricsTracker.new] using hl
  refine ⟨?_, ?_, ?_⟩
  · simp only [finalTracker]
    rw [(end_session_fields tEnd _).2.1]
    cases hr : (loopRes t0 sid stream).raised <;> simp [hr, record_error, h0]
  · simp only [fullTrace, List.count_append]
    rw [List.count_eq_zero.mpr ht']
    cases hr : (loopRes t0 sid stream).raised <;> simp [List.count_cons]
  · simp only [finalTracker]
    rw [(end_session_fields tEnd _).2.2.1]
    cases hr : (loopRes t0 sid stream).raised
    · simpa using hlen
    · simpa [record_error] using hlen

/-- C9: in a successful cycle the recorded TTFD sample is the wall-clock time
elapsed from the start of the Generating (LLM) stage — which begins at clock
`t + dstt` — until the TTS result is available at clock `t + dstt + dllm +
dtts`; it therefore equals the combined LLM+TTS latency `dllm + dtts`, and it
differs from the elapsed time since the start of Synthesizing (`dtts`) whenever
the LLM call took any time at all.  This mirrors `ttfd = time.time() -
start_llm` at `main.py` line 176. -/
theorem C9_ttfd_measured_from_llm_start (t : ℚ) (m : MetricsTracker)
    (dstt dllm dtts : ℚ) (send : Bool) :
    (processSegment t m ⟨.ok dstt, .ok dllm, .ok dtts, send⟩).tracker.ttfd_delays =
      m.ttfd_delays ++ [t + dstt + dllm + dtts - (t + dstt)] ∧
    t + dstt + dllm + dtts - (t + dstt) = dllm + dtts ∧
    (dllm ≠ 0 →
      t + dstt + dllm + dtts - (t + dstt) ≠ t + dstt + dllm + dtts - (t + dstt + dllm)) := by
  refine ⟨?_, by ring, ?_⟩
  · simp [processSegment, record_stt_delay, record_user_message, record_ttft,
      record_ttfd, record_agent_response]
  · intro h hcontra
    apply h
    have : t + dstt + dllm + dtts - (t + dstt) - (t + dstt + dllm + dtts - (t + dstt + dllm)) =
        dllm := by ring
    rw [hcontra] at this
    simpa using this.symm

/-- Witness for `C9_ttfd_measured_from_llm_start` at `t = 0`, unit stage
durations, on a fresh tracker. -/
theorem C9_ttfd_measured_from_llm_start_witness :
    (processSegment 0 MetricsTracker.new ⟨.ok 1, .ok 1, .ok 1, true⟩).tracker.ttfd_delays =
      MetricsTracker.new.ttfd_delays ++ [(0 : ℚ) + 1 + 1 + 1 - (0 + 1)] ∧
    (0 : ℚ) + 1 + 1 + 1 - (0 + 1) ≠ (0 : ℚ) + 1 + 1 + 1 - (0 + 1 + 1) :=
  ⟨(C9_ttfd_measured_from_llm_start 0 MetricsTracker.new 1 1 1 true).1,
   (C9_ttfd_measured_from_llm_start 0 MetricsTracker.new 1 1 1 true).2.2 (by norm_num)⟩

/-- C2 counterexample: calling `record_stt_delay` on a fresh tracker — before
any `start_session` — mutates the sample list instead of raising
`InvalidStateError`, and calling `record_user_message` after `end_session`
increments the counter instead of raising. -/
theorem C2_counterexample :
    MetricsTracker.new.session_start = none ∧
    (record_stt_delay MetricsTracker.new 1).stt_delays = [1] ∧
    (record_user_message (end_session 5 (start_session 0 "s" MetricsTracker.new))).user_messages
      = 1 := by
  refine ⟨rfl, by decide, by decide⟩

/-- C2 amended: no `record*` method checks the session state: in every tracker
state — including before `start_session` was ever called and after
`end_session` — each method performs its append/increment unconditionally and
never signals `InvalidStateError` (the source methods have no state guard at
all, `main.py` lines 41–65). -/
theorem C2_record_methods_unconditional (m : MetricsTracker) (d : ℚ) :
    (record_stt_delay m d).stt_delays = m.stt_delays ++ [d] ∧
    (record_ttft m d).ttft_delays = m.ttft_delays ++ [d] ∧
    (record_ttfd m d).ttfd_delays = m.ttfd_delays ++ [d] ∧
    (record_total_latency m d).total_latencies = m.total_latencies ++ [d] ∧
    (record_user_message m).user_messages = m.user_messages + 1 ∧
    (record_agent_response m).agent_responses = m.agent_responses + 1 ∧
    (record_interruption m).interruptions_count = m.interruptions_count + 1 ∧
    (record_error m).errors = m.errors + 1 := by
  exact ⟨rfl, rfl, rfl, rfl, rfl, rfl, rfl, rfl⟩

/-- The seed of a `max`-fold bounds the result from below. -/
theorem le_foldl_max (b : ℚ) (xs : List ℚ) : b ≤ xs.foldl max b := by
  induction xs generalizing b with
  | nil => exact le_refl b
  | cons y ys ih => exact le_trans (le_max_left b y) (ih (max b y))

/-- Every element of the list is bounded by the `max`-fold. -/
theorem mem_le_foldl_max (b : ℚ) (xs : List ℚ) : ∀ y ∈ xs, y ≤ xs.foldl max b := by
  induction xs generalizing b with
  | nil => intro y hy; simp at hy
  | cons z zs ih =>
    intro y hy
    rcases List.mem_cons.mp hy with h | h
    · subst h; exact le_trans (le_max_right b y) (le_foldl_max _ zs)
    · exact ih (max b z) y h

/-- The `max`-fold is the seed or an element of the list. -/
theorem foldl_max_mem (b : ℚ) (xs : List ℚ) : xs.foldl max b = b ∨ xs.foldl max b ∈ xs := by
  induction xs generalizing b with
  | nil => left; rfl
  | cons z zs ih =>
    rcases ih (max b z) with h | h
    · rcases max_choice b z with hm | hm
      · left; rw [List.foldl_cons, h, hm]
      · right; rw [List.foldl_cons, h, hm]; exact List.mem_cons_self z zs
    · right; exact List.mem_cons_of_mem z (by rw [List.foldl_cons]; exact h)

/-- Python `max` over a non-empty list: an attained upper bound. -/
theorem listMax_spec (x : ℚ) (xs : List ℚ) :
    listMax (x :: xs) ∈ x :: xs ∧ ∀ y ∈ x :: xs, y ≤ listMax (x :: xs) := by
  constructor
  · rcases foldl_max_mem x xs with h | h
    · simp only [listMax, h]; exact List.mem_cons_self x xs
    · simp only [listMax]; exact List.mem_cons_of_mem x h
  · intro y hy
    rcases List.mem_cons.mp hy with h | h
    · subst h; exact le_foldl_max y xs
    · exact mem_le_foldl_max x xs y h

/-- The seed of a `min`-fold bounds the result from above. -/
theorem foldl_min_le (b : ℚ) (xs : List ℚ) : xs.foldl min b ≤ b := by
  induction xs generalizing b with
  | nil => exact le_refl b
  | cons y ys ih => exact le_trans (ih (min b y)) (min_le_left b y)

/-- The `min`-fold is bounded by every element of the list. -/
theorem foldl_min_le_mem (b : ℚ) (xs : List ℚ) : ∀ y ∈ xs, xs.foldl min b ≤ y := by
  induction xs generalizing b with
  | nil => intro y hy; simp at hy
  | cons z zs ih =>
    intro y hy
    rcases List.mem_cons.mp hy with h | h
    · subst h; exact le_trans (foldl_min_le _ zs) (min_le_right b y)
    · exact ih (min b z) y h

/-- The `min`-fold is the seed or an element of the list. -/
theorem foldl_min_mem (b : ℚ) (xs : List ℚ) : xs.foldl min b = b ∨ xs.foldl min b ∈ xs := by
  induction xs generalizing b with
  | nil => left; rfl
  | cons z zs ih =>
    rcases ih (min b z) with h | h
    · rcases min_choice b z with hm | hm
      · left; rw [List.foldl_cons, h, hm]
      · right; rw [List.foldl_cons, h, hm]; exact List.mem_cons_self z zs
    · right; exact List.mem_cons_of_mem z (by rw [List.foldl_cons]; exact h)

/-- Python `min` over a non-empty list: an attained lower bound. -/
theorem listMin_spec (x : ℚ) (xs : List ℚ) :
    listMin (x :: xs) ∈ x :: xs ∧ ∀ y ∈ x :: xs, listMin (x :: xs) ≤ y := by
  constructor
  · rcases foldl_min_mem x xs with h | h
    · simp only [listMin, h]; exact List.mem_cons_self x xs
    · simp only [listMin]; exact List.mem_cons_of_mem x h
  · intro y hy
    rcases List.mem_cons.mp hy with h | h
    · subst h; exact foldl_min_le y xs
    · exact foldl_min_le_mem x xs y h

/-- The guarded average on a non-empty list is `sum / length`. -/
theorem listAvg_ne_nil (l : List ℚ) (h : l ≠ []) : listAvg l = l.sum / l.length := by
  cases l with
  | nil => exact absurd rfl h
  | cons x xs => simp [listAvg]

/-- C4: every derived value of the exported snapshot is recomputed from the raw
samples: each of the four averages equals `sum/N` for its `N` samples and is 0
for `N = 0` (the `if ... else 0` guard, so no division by zero is attempted);
the snapshot's min/max fields — computed for the total-latency samples — are
attained raw samples bounding all samples, and are 0 for empty data. -/
theorem C4_snapshot_from_raw (m : MetricsTracker) :
    (m.stt_delays ≠ [] →
      (summary m).avg_stt = m.stt_delays.sum / m.stt_delays.length) ∧
    (m.stt_delays = [] → (summary m).avg_stt = 0) ∧
    (m.ttft_delays ≠ [] →
      (summary m).avg_ttft = m.ttft_delays.sum / m.ttft_delays.length) ∧
    (m.ttft_delays = [] → (summary m).avg_ttft = 0) ∧
    (m.ttfd_delays ≠ [] →
      (summary m).avg_ttfd = m.ttfd_delays.sum / m.ttfd_delays.length) ∧
    (m.ttfd_delays = [] → (summary m).avg_ttfd = 0) ∧
    (m.total_latencies ≠ [] →
      (summary m).avg_latency = m.total_latencies.sum / m.total_latencies.length) ∧
    (m.total_latencies ≠ [] → (summary m).max_latency ∈ m.total_latencies ∧
      ∀ y ∈ m.total_latencies, y ≤ (summary m).max_latency) ∧
    (m.total_latencies ≠ [] → (summary m).min_latency ∈ m.total_latencies ∧
      ∀ y ∈ m.total_latencies, (summary m).min_latency ≤ y) ∧
    (m.total_latencies = [] → (summary m).avg_latency = 0 ∧
      (summary m).max_latency = 0 ∧ (summary m).min_latency = 0) := by
  refine ⟨?_, ?_, ?_, ?_, ?_, ?_, ?_, ?_, ?_, ?_⟩
  · intro h; exact listAvg_ne_nil _ h
  · intro h; simp [summary, h, listAvg]
  · intro h; exact listAvg_ne_nil _ h
  · intro h; simp [summary, h, listAvg]
  · intro h; exact listAvg_ne_nil _ h
  · intro h; simp [summary, h, listAvg]
  · intro h; exact listAvg_ne_nil _ h
  · intro h
    rcases hl : m.total_latencies with _ | ⟨x, xs⟩
    · exact absurd hl h
    · have hs := listMax_spec x xs
      constructor
      · show listMax m.total_latencies ∈ x :: xs
        rw [hl]; exact hs.1
      · intro y hy
        show y ≤ listMax m.total_latencies
        rw [hl]; exact hs.2 y hy
  · intro h
    rcases hl : m.total_latencies with _ | ⟨x, xs⟩
    · exact absurd hl h
    · have hs := listMin_spec x xs
      constructor
      · show listMin m.total_latencies ∈ x :: xs
        rw [hl]; exact hs.1
      · intro y hy
        show listMin m.total_latencies ≤ y
        rw [hl]; exact hs.2 y hy
  · intro h; simp [summary, h, listAvg, listMax, listMin]

/-- Tracker with one STT sample and two total-latency samples, for witnesses. -/
def mSample : MetricsTracker :=
  { MetricsTracker.new with stt_delays := [2], total_latencies := [3, 1] }

/-- Witness for `C4_snapshot_from_raw` on `mSample`. -/
theorem C4_snapshot_from_raw_witness :
    (summary mSample).avg_stt = mSample.stt_delays.sum / mSample.stt_delays.length ∧
    (summary mSample).avg_ttft = 0 ∧
    (summary mSample).max_latency ∈ mSample.total_latencies :=
  ⟨(C4_snapshot_from_raw mSample).1 (by decide),
   (C4_snapshot_from_raw mSample).2.2.2.1 rfl,
   ((C4_snapshot_from_raw mSample).2.2.2.2.2.2.2.1 (by decide)).1⟩

/-- C5: `end_session` followed by `save_to_excel` on the failure-free sink path
appends exactly one summary record: the new contents are the old records with
one row appended, the record count grows by exactly 1 (however many cycles the
tracker accumulated), and every prior record is preserved unchanged in place. -/
theorem C5_export_appends_one_record (tEnd : ℚ) (m : MetricsTracker)
    (sink : List SummaryRecord) :
    save_to_excel (end_session tEnd m) .ok sink =
      .ok (sink ++ [summary (end_session tEnd m)]) ∧
    (sink ++ [summary (end_session tEnd m)]).length = sink.length + 1 ∧
    (sink ++ [summary (end_session tEnd m)]).take sink.length = sink := by
  refine ⟨save_to_excel_ok_eq _ sink, by simp, ?_⟩
  simp

/-- C7: `validate_config` marks the configuration invalid whenever a stage has
zero configured providers — the errors then contain the message naming that
stage and `available_services` maps the stage to the empty list — and it
returns `valid = True` whenever both transport credentials are present and
every one of the three stages has at least one provider with credentials. -/
theorem C7_validate_config_stages (c : Config) :
    (∀ st : Stage, (get_service_priority c).get st = [] →
      (validate_config c).valid = false ∧
      stageError st ∈ (validate_config c).errors ∧
      ((validate_config c).available_services).get st = []) ∧
    (truthy c.livekit_api_key = true → truthy c.livekit_api_secret = true →
      (∀ st : Stage, (get_service_priority c).get st ≠ []) →
      (validate_config c).valid = true) := by
  constructor
  · intro st h
    cases st <;>
      simp only [ServicePriorities.get] at h <;>
      refine ⟨?_, ?_, ?_⟩ <;>
        simp [validate_config, ServicePriorities.get, h] <;>
        split_ifs <;> simp
  · intro h1 h2 h3
    have hstt := h3 .stt
    have hllm := h3 .llm
    have htts := h3 .tts
    simp only [ServicePriorities.get] at hstt hllm htts
    simp [validate_config, h1, h2, hstt, hllm, htts]

/-- Configuration with no credentials at all. -/
def cfgNone : Config := {}

/-- Configuration with transport credentials and an OpenAI key, which covers
all three stages. -/
def cfgFull : Config :=
  { livekit_api_key := some "k", livekit_api_secret := some "s",
    openai_api_key := some "o" }

/-- Witness for `C7_validate_config_stages`: the empty configuration is invalid
with the STT error recorded, and the OpenAI-everywhere configuration is valid. -/
theorem C7_validate_config_stages_witness :
    ((validate_config cfgNone).valid = false ∧
      stageError .stt ∈ (validate_config cfgNone).errors ∧
      ((validate_config cfgNone).available_services).get .stt = []) ∧
    (validate_config cfgFull).valid = true :=
  ⟨(C7_validate_config_stages cfgNone).1 .stt (by decide),
   (C7_validate_config_stages cfgFull).2 (by decide) (by decide)
     (by intro st; cases st <;> decide)⟩

/-- Tracker whose single total-latency sample averages to 2.5 seconds. -/
def mLat : MetricsTracker := { MetricsTracker.new with total_latencies := [5/2] }

/-- Configuration with the target latency raised to 3.0 seconds. -/
def cfgTarget3 : Config := { target_latency := 3 }

/-- C8 counterexample: with an average total latency of 2.5 and the configured
target latency set to 3.0, the exported flag is `false` even though the average
is below the configured target: `save_to_excel` compares against the hardcoded
constant 2.0 (`main.py` line 95) and never consults `Config.TARGET_LATENCY`. -/
theorem C8_counterexample :
    (summary mLat).latency_target_met = false ∧
    listAvg mLat.total_latencies < cfgTarget3.target_latency ∧
    (summary mLat).latency_target_met ≠
      decide (listAvg mLat.total_latencies < cfgTarget3.target_latency) := by
  have havg : listAvg mLat.total_latencies = 5 / 2 := by
    norm_num [mLat, listAvg, MetricsTracker.new]
  have hlt : ¬ (listAvg mLat.total_latencies < 2) := by rw [havg]; norm_num
  have hlt3 : listAvg mLat.total_latencies < cfgTarget3.target_latency := by
    rw [havg]; norm_num [cfgTarget3]
  refine ⟨by simp [summary, hlt], hlt3, by simp [summary, hlt, hlt3]⟩

/-- C8 amended: the exported "latency target met" flag is true exactly when the
session's average total latency is below the hardcoded constant 2.0 time-units;
the configurable target-latency option does not enter the computation. -/
theorem C8_hardcoded_latency_threshold (m : MetricsTracker) :
    (summary m).latency_target_met = true ↔ listAvg m.total_latencies < 2 := by
  simp [summary]

/-- C10: the metrics export never propagates an exception: for every tracker
state and every failure mode of the underlying sink (read error, write error,
or none) `save_to_excel` returns normally — the `try/except Exception` block
swallows the failure — so session teardown cannot be aborted by it. -/
theorem C10_save_to_excel_never_raises (m : MetricsTracker) (f : SinkFailure)
    (sink : List SummaryRecord) :
    ∃ rows, save_to_excel m f sink = .ok rows :=
  save_to_excel_isOk m f sink
